/-
Verification of the floating-IP list/release API controller
(pkg/ipam/api/api.go) of the galaxy repository.

The controller logic (ListIPs, ReleaseIPs, fillReleasableAndStatus,
sortFunc, toAppTypePrefix, listIPs, transform, batchReleaseIPs) is
translated from the Go source.  External collaborators that are not part
of the repository's source tree here (the key codec of
schedulerplugin/util, the floatingip store implementations, the pageutil
pagination helpers, Go's net.ParseIP and strconv.ParseBool) are either
modelled from the specification or taken as abstract function parameters.
-/
import Mathlib

namespace Galaxy

/-! ## Basic string helpers -/

/-- Substring containment on character lists: Go strings.Contains. -/
def charsContain (n : List Char) : List Char → Bool
  | [] => n.isEmpty
  | c :: t => n.isPrefixOf (c :: t) || charsContain n t

/-- Go strings.Contains(hay, needle). -/
def strContains (hay needle : String) : Bool :=
  charsContain needle.data hay.data

/-- Go strings.ToLower, character-wise. -/
def strToLower (s : String) : String := ⟨s.data.map Char.toLower⟩

/-- Go fmt %q verb on a string (quotation, escapes elided). -/
def goQuote (s : String) : String := "\"" ++ s ++ "\""

/-! ## Key codec (schedulerplugin/util), modelled from the spec -/

/-- Modelled from the spec: util.DeploymentPrefixKey is not under src/.
The spec only requires three distinct, non-empty app-type markers. -/
def DeploymentPrefixKey : String := "dp_"

/-- Modelled from the spec: util.StatefulsetPrefixKey is not under src/. -/
def StatefulsetPrefixKey : String := "sts_"

/-- Modelled from the spec: util.TAppPrefixKey is not under src/. -/
def TAppPrefixKey : String := "tapp_"

/-- Ownership key fields (util.KeyObj), modelled from the spec. -/
structure KeyObj where
  appTypePfx : String := ""
  ns : String := ""
  appName : String := ""
  podName : String := ""
  poolName : String := ""
  deriving Repr, DecidableEq

/-- Modelled from the spec: util.NewKeyObj(...).KeyInDB is not under src/.
The spec requires a deterministic, collision-free encoding that starts
with the app-type marker and embeds the remaining fields; claims below
depend only on which marker heads the key, so a separator-joined
concatenation suffices. -/
def keyInDB (appTypePfx ns appName podName poolName : String) : String :=
  appTypePfx ++ ns ++ "/" ++ appName ++ "/" ++ podName ++ "/" ++ poolName

/-- Split a character list on the slash separator. -/
def splitSlash : List Char → List (List Char)
  | [] => [[]]
  | c :: t =>
    if c = '/' then [] :: splitSlash t
    else
      match splitSlash t with
      | [] => [[c]]
      | h :: r => (c :: h) :: r

/-- Modelled from the spec: util.ParseKey is not under src/.  Recovers the
fields of a key produced by `keyInDB`; an unrecognized marker yields the
zero object. -/
def parseKey (s : String) : KeyObj :=
  let decode (pfx : String) : KeyObj :=
    match (splitSlash (s.data.drop pfx.data.length)).map List.asString with
    | [a, b, c, d] => ⟨pfx, a, b, c, d⟩
    | _ => ⟨pfx, "", "", "", ""⟩
  if DeploymentPrefixKey.data.isPrefixOf s.data then decode DeploymentPrefixKey
  else if StatefulsetPrefixKey.data.isPrefixOf s.data then decode StatefulsetPrefixKey
  else if TAppPrefixKey.data.isPrefixOf s.data then decode TAppPrefixKey
  else {}

/-! ## Data model (api.go) -/

/-- api.FloatingIP: the presentation record.  UpdateTime is modelled as a
natural timestamp. -/
structure FloatingIP where
  IP : String := ""
  Namespace : String := ""
  AppName : String := ""
  PodName : String := ""
  PoolName : String := ""
  Policy : Nat := 0
  IsDeployment : Bool := false
  AppType : String := ""
  UpdateTime : Nat := 0
  Status : String := ""
  Releasable : Bool := false
  attr : String := ""
  deriving Repr, DecidableEq

/-- database.FloatingIP: the stored row (ip as 32-bit integer). -/
structure DBFloatingIP where
  key : String := ""
  ip : Nat := 0
  policy : Nat := 0
  attr : String := ""
  updatedAt : Nat := 0
  deriving Repr, DecidableEq

/-- A pod as far as this engine observes it: its status phase. -/
structure Pod where
  phase : String
  deriving Repr, DecidableEq

/-- The pod-state collaborator (v1.PodLister): namespace → name →
error, no pod, or a pod. -/
def PodLister : Type := String → String → Except String (Option Pod)

/-! ## toAppTypePrefix / toAppType (api.go 150-175) -/

/-- api.toAppTypePrefix: converts app name to app key marker. -/
def toAppTypePfx (appType : String) : String :=
  if appType = "deployment" then DeploymentPrefixKey
  else if appType = "statefulset" then StatefulsetPrefixKey
  else if appType = "statefulsets" then StatefulsetPrefixKey
  else if appType = "tapp" then TAppPrefixKey
  else ""

/-- api.toAppType: converts app key marker to app name. -/
def toAppType (appTypePfx : String) : String :=
  if appTypePfx = DeploymentPrefixKey then "deployment"
  else if appTypePfx = StatefulsetPrefixKey then "statefulset"
  else if appTypePfx = TAppPrefixKey then "tapp"
  else ""

/-! ## fillReleasableAndStatus (api.go 178-195) -/

/-- The loop body of api.fillReleasableAndStatus for one record. -/
def fillOne (lister : PodLister) (r : FloatingIP) : FloatingIP :=
  let r := { r with Releasable := true }
  if r.PodName = "" then r
  else
    match lister r.Namespace r.PodName with
    | .error _ => { r with Status := "Deleted" }
    | .ok none => { r with Status := "Deleted" }
    | .ok (some pod) => { r with Status := pod.phase, Releasable := false }

/-- The in-place slice update of api.fillReleasableAndStatus. -/
def fillList (lister : PodLister) (l : List FloatingIP) : List FloatingIP :=
  l.map (fillOne lister)

/-- api.fillReleasableAndStatus: fills status and releasable, returning
the Go error value (which the body never sets). -/
def fillReleasableAndStatus (lister : PodLister) (l : List FloatingIP) :
    Except String (List FloatingIP) :=
  .ok (fillList lister l)

/-! ## sortFunc (api.go 217-260) -/

/-- Comparator: namespace ascending. -/
def nsAscLess (a b : FloatingIP) : Bool := a.Namespace < b.Namespace

/-- Comparator: namespace descending. -/
def nsDescLess (a b : FloatingIP) : Bool := a.Namespace > b.Namespace

/-- Comparator: pod name ascending. -/
def podAscLess (a b : FloatingIP) : Bool := a.PodName < b.PodName

/-- Comparator: pod name descending. -/
def podDescLess (a b : FloatingIP) : Bool := a.PodName > b.PodName

/-- Comparator: policy ascending. -/
def policyAscLess (a b : FloatingIP) : Bool := a.Policy < b.Policy

/-- Comparator: policy descending. -/
def policyDescLess (a b : FloatingIP) : Bool := a.Policy > b.Policy

/-- Comparator: ip ascending (the default). -/
def ipAscLess (a b : FloatingIP) : Bool := a.IP < b.IP

/-- Comparator: ip descending. -/
def ipDescLess (a b : FloatingIP) : Bool := a.IP > b.IP

/-- api.sortFunc: selects the Less function from the sort token. -/
def sortFunc (sort : String) : FloatingIP → FloatingIP → Bool :=
  let s := strToLower sort
  if s = "namespace asc" then nsAscLess
  else if s = "namespace desc" then nsDescLess
  else if s = "podname" then podAscLess
  else if s = "podname asc" then podAscLess
  else if s = "podname desc" then podDescLess
  else if s = "policy" then policyAscLess
  else if s = "policy asc" then policyAscLess
  else if s = "policy desc" then policyDescLess
  else if s = "ip desc" then ipDescLess
  else ipAscLess

/-- Go sort.Sort(bySortParam{array, lessFunc}): sort.Sort promises only
an ordering in which no later element is Less than an earlier one; this
realizes that contract as a sort by the non-strict complement of the
Less function. -/
def sortBy (less : FloatingIP → FloatingIP → Bool) (l : List FloatingIP) :
    List FloatingIP :=
  l.insertionSort (fun a b => less b a = false)

/-! ## batchReleaseIPs (api.go 392-417) -/

/-- The result triple of a store-level ReleaseIPs call: released map,
unreleased map (association lists standing for Go maps), error. -/
structure RelResult where
  released : List (String × String) := []
  unreleased : List (String × String) := []
  err : Option String := none
  deriving Repr, DecidableEq

/-- The observable release behaviour of one floatingip.IPAM store (the
implementations are external to this file's sources): the result of
ReleaseIPs on a given ip-to-key map. -/
def StoreFn : Type := List (String × String) → RelResult

/-- Go map insert released[k] = v on the association-list model. -/
def insertAssoc (m : List (String × String)) (k v : String) :
    List (String × String) :=
  if m.any (fun p => p.1 = k) then
    m.map (fun p => if p.1 = k then (k, v) else p)
  else m ++ [(k, v)]

/-- The merge loop `for k, v := range released2 \x7b released[k] = v \x7d`. -/
def mergeAssoc (m additions : List (String × String)) :
    List (String × String) :=
  additions.foldl (fun acc p => insertAssoc acc p.1 p.2) m

/-- The secondary-store error pattern of api.go 411:
strings.Contains(err, "Table") && strings.Contains(err, "doesn't exist").
The apostrophe is spelled via Char.ofNat to keep the source ASCII-plain. -/
def tableAbsentErr (e : String) : Bool :=
  strContains e "Table" &&
    strContains e ("doesn" ++ String.singleton (Char.ofNat 39) ++ "t exist")

/-- api.batchReleaseIPs: release ips from ipams, primary first, retrying
the primary leftover on the secondary when present. -/
def batchReleaseIPs (ipToKey : List (String × String)) (ipam : StoreFn)
    (secondIpam : Option StoreFn) : RelResult :=
  let r1 := ipam ipToKey
  match r1.err with
  | some e => { released := r1.released, unreleased := r1.unreleased, err := some e }
  | none =>
    match secondIpam with
    | none => { released := r1.released, unreleased := r1.unreleased, err := none }
    | some s2 =>
      let r2 := s2 r1.unreleased
      let released := mergeAssoc r1.released r2.released
      match r2.err with
      | some e =>
        if tableAbsentErr e then
          { released := released, unreleased := r2.unreleased, err := none }
        else
          { released := released, unreleased := r2.unreleased, err := some e }
      | none => { released := released, unreleased := r2.unreleased, err := none }

/-! ## Controller.ReleaseIPs (api.go 282-341) -/

/-- The outcome of the ReleaseIPs handler: an httputil.BadRequest write,
or the WriteHeaderAndEntity of a ReleaseIPResp (code, message, the
unreleased ip list). -/
inductive ReleaseOutcome where
  | badRequest (msg : String)
  | done (code : Nat) (msg : String) (unreleased : List String)
  deriving Repr, DecidableEq

/-- The per-record body of the validation loop (api.go 289-312): parse
the ip, resolve the app-type marker (legacy IsDeployment when AppType is
absent), and build the record's expected key.  `parseIP` stands for Go's
net.ParseIP succeeding. -/
def recordKey (parseIP : String → Bool) (r : FloatingIP) :
    Except String String :=
  if !(parseIP r.IP) then .error (goQuote r.IP ++ " is not a valid ip")
  else if r.AppType = "" then
    .ok (keyInDB (if r.IsDeployment then DeploymentPrefixKey else StatefulsetPrefixKey)
      r.Namespace r.AppName r.PodName r.PoolName)
  else
    let p := toAppTypePfx r.AppType
    if p = "" then .error ("unknown app type " ++ goQuote r.AppType)
    else .ok (keyInDB p r.Namespace r.AppName r.PodName r.PoolName)

/-- The validation loop of api.go 289-312 building expectIPtoKey. -/
def buildIpToKeyAux (parseIP : String → Bool)
    (acc : List (String × String)) :
    List FloatingIP → Except String (List (String × String))
  | [] => .ok acc
  | r :: rest =>
    match recordKey parseIP r with
    | .error e => .error e
    | .ok k => buildIpToKeyAux parseIP (insertAssoc acc r.IP k) rest

/-- expectIPtoKey as built by the validation loop from the request. -/
def buildIpToKey (parseIP : String → Bool) (l : List FloatingIP) :
    Except String (List (String × String)) :=
  buildIpToKeyAux parseIP [] l

/-- The response assembly of api.go 324-340 from the batch result. -/
def respondFromBatch (res : RelResult) : ReleaseOutcome :=
  let unreleasedIP := res.unreleased.map (fun p => p.1)
  match res.err with
  | some e => .done 500 ("server error: " ++ e) unreleasedIP
  | none =>
    if unreleasedIP.length > 0 then
      .done 202 ("Unreleased ips have been released or allocated to other pods, " ++
        "or are not within valid range") unreleasedIP
    else .done 200 "" unreleasedIP

/-- api.Controller.ReleaseIPs on an already-decoded request body. -/
def controllerReleaseIPs (parseIP : String → Bool) (lister : PodLister)
    (ipam : StoreFn) (secondIpam : Option StoreFn)
    (reqIPs : List FloatingIP) : ReleaseOutcome :=
  match buildIpToKey parseIP reqIPs with
  | .error msg => .badRequest msg
  | .ok expectIPtoKey =>
    match fillReleasableAndStatus lister reqIPs with
    | .error e => .badRequest e
    | .ok filled =>
      match filled.find? (fun r => !r.Releasable) with
      | some r => .badRequest (r.IP ++ " is not releasable")
      | none => respondFromBatch (batchReleaseIPs expectIPtoKey ipam secondIpam)

/-! ## listIPs / transform (api.go 344-389) -/

/-- The observable query behaviour of one floatingip.IPAM store: results
of ByPrefix and ByKeyword. -/
structure QueryStore where
  prefixQuery : String → Except String (List DBFloatingIP)
  keywordQuery : String → Except String (List DBFloatingIP)

/-- nets.IntToIP(...).String() for an IPv4 address stored as a 32-bit
integer, dotted-quad rendering. -/
def intToIP (n : Nat) : String :=
  toString (n / 16777216 % 256) ++ "." ++ toString (n / 65536 % 256) ++ "." ++
    toString (n / 256 % 256) ++ "." ++ toString (n % 256)

/-- api.transform: converts database.FloatingIP rows to presentation
records. -/
def transform (fips : List DBFloatingIP) : List FloatingIP :=
  fips.map (fun f =>
    let keyObj := parseKey f.key
    { IP := intToIP f.ip
      Namespace := keyObj.ns
      AppName := keyObj.appName
      PodName := keyObj.podName
      PoolName := keyObj.poolName
      IsDeployment := keyObj.appTypePfx = DeploymentPrefixKey
      AppType := toAppType keyObj.appTypePfx
      Policy := f.policy
      UpdateTime := f.updatedAt
      attr := f.attr })

/-- api.listIPs: lists ips from ipams; mirrors the Go signature that
returns both a slice and an error. -/
def listIPs (keyword : String) (ipam : QueryStore)
    (secondIpam : Option QueryStore) (fuzzyQuery : Bool) :
    List FloatingIP × Option String :=
  match (if fuzzyQuery then ipam.keywordQuery keyword else ipam.prefixQuery keyword) with
  | .error e => ([], some e)
  | .ok fips =>
    let resp := transform fips
    match secondIpam with
    | none => (resp, none)
    | some s2 =>
      match (if fuzzyQuery then s2.keywordQuery keyword else s2.prefixQuery keyword) with
      | .error e => (resp, some e)
      | .ok secondFips => (resp ++ transform secondFips, none)

/-! ## Pagination and parameter parsing collaborators -/

/-- Modelled from the spec: pageutil.Pagination is not under src/.  The
window for a 1-based page of the given size is clamped to [0, total];
a page beyond the result count yields an empty window. -/
def pagination (page size total : Nat) : Nat × Nat :=
  let start := min ((page - 1) * size) total
  (start, min (start + size) total)

/-- Go strconv.ParseBool (standard library, external to the repository):
accepts exactly these twelve tokens. -/
def parseBool (s : String) : Option Bool :=
  if s = "1" ∨ s = "t" ∨ s = "T" ∨ s = "TRUE" ∨ s = "true" ∨ s = "True" then
    some true
  else if s = "0" ∨ s = "f" ∨ s = "F" ∨ s = "FALSE" ∨ s = "false" ∨ s = "False" then
    some false
  else none

/-! ## Controller.ListIPs (api.go 94-147) -/

/-- The query parameters of a list request (pageutil.PagingParams
defaults already applied to sortParam/page/size). -/
structure ListReq where
  keyword : String := ""
  poolName : String := ""
  appName : String := ""
  podName : String := ""
  ns : String := ""
  appType : String := ""
  isDeployment : String := ""
  sortParam : String := ""
  page : Nat := 1
  size : Nat := 10

/-- The outcome of the ListIPs handler. -/
inductive ListOutcome where
  | badRequest (msg : String)
  | internalError (msg : String)
  | ok (content : List FloatingIP)
  deriving Repr, DecidableEq

/-- api.Controller.ListIPs after the key is fixed (api.go 132-146):
query, sort, paginate, fill, respond. -/
def listPhase (key : String) (fuzzyQuery : Bool) (ipam : QueryStore)
    (secondIpam : Option QueryStore) (lister : PodLister)
    (sortParam : String) (page size : Nat) : ListOutcome :=
  match listIPs key ipam secondIpam fuzzyQuery with
  | (_, some e) => .internalError e
  | (fips, none) =>
    let sorted := sortBy (sortFunc sortParam) fips
    let window := pagination page size sorted.length
    let pagedFips := (sorted.drop window.1).take (window.2 - window.1)
    match fillReleasableAndStatus lister pagedFips with
    | .error e => .internalError e
    | .ok filled => .ok filled

/-- The tail of the structured-filter branch of api.Controller.ListIPs
(api.go 126-131): reject an empty resolved marker as an invalid appType,
otherwise issue the prefix query built from the marker. -/
def listWithPfx (ipam : QueryStore) (secondIpam : Option QueryStore)
    (lister : PodLister) (req : ListReq) (appTypePfx : String) : ListOutcome :=
  if appTypePfx = "" then .badRequest ("invalid appType " ++ req.appType)
  else
    listPhase (keyInDB appTypePfx req.ns req.appName req.podName req.poolName)
      false ipam secondIpam lister req.sortParam req.page req.size

/-- api.Controller.ListIPs: resolve the query key (keyword, or the
structured filter with appType / legacy isDeployment), then list. -/
def controllerListIPs (ipam : QueryStore) (secondIpam : Option QueryStore)
    (lister : PodLister) (req : ListReq) : ListOutcome :=
  if req.keyword = "" then
    if req.appType = "" then
      if req.isDeployment ≠ "" then
        match parseBool req.isDeployment with
        | none => .badRequest ("invalid isDeployment(bool field): " ++ req.isDeployment)
        | some isDep =>
          listWithPfx ipam secondIpam lister req
            (if isDep then DeploymentPrefixKey else StatefulsetPrefixKey)
      else listWithPfx ipam secondIpam lister req StatefulsetPrefixKey
    else listWithPfx ipam secondIpam lister req (toAppTypePfx req.appType)
  else
    listPhase req.keyword true ipam secondIpam lister req.sortParam req.page req.size

/-- The sort tokens recognized by api.sortFunc (compared after
lowercasing). -/
def recognizedSortTokens : List String :=
  ["namespace asc", "namespace desc", "podname", "podname asc", "podname desc",
   "policy", "policy asc", "policy desc", "ip desc", "ip", "ip asc"]

/-- The ip keys of an association list. -/
def keysOf (m : List (String × String)) : List String := m.map Prod.fst

/-! ## Shared lemmas -/

theorem keysOf_insertAssoc (m : List (String × String)) (k v k' : String) :
    k' ∈ keysOf (insertAssoc m k v) ↔ k' ∈ keysOf m ∨ k' = k := by
  unfold insertAssoc
  split
  · next hm =>
    rcases List.any_eq_true.mp hm with ⟨q, hq, hqk⟩
    have hqk : q.1 = k := of_decide_eq_true hqk
    simp only [keysOf, List.map_map, List.mem_map, Function.comp]
    constructor
    · rintro ⟨p, hp, hk⟩
      by_cases h : p.1 = k
      · simp only [if_pos h] at hk
        right; exact hk.symm
      · simp only [if_neg h] at hk
        left; exact ⟨p, hp, hk⟩
    · rintro (⟨p, hp, hk⟩ | rfl)
      · by_cases h : p.1 = k
        · exact ⟨q, hq, by simp only [if_pos hqk]; rw [← hk, h]⟩
        · exact ⟨p, hp, by simp only [if_neg h]; exact hk⟩
      · exact ⟨q, hq, by simp only [if_pos hqk]⟩
  · simp [keysOf, eq_comm]

theorem keysOf_mergeAssoc (b a : List (String × String)) (k : String) :
    k ∈ keysOf (mergeAssoc a b) ↔ k ∈ keysOf a ∨ k ∈ keysOf b := by
  induction b generalizing a with
  | nil => simp [mergeAssoc, keysOf]
  | cons p t ih =>
    simp only [mergeAssoc, List.foldl_cons] at *
    rw [ih, keysOf_insertAssoc]
    simp only [keysOf, List.map_cons, List.mem_cons]
    tauto

theorem fillOne_podless (lister : PodLister) (r : FloatingIP)
    (h : r.PodName = "") : fillOne lister r = { r with Releasable := true } := by
  simp [fillOne, h]

theorem fillOne_releasable_of_podless (lister : PodLister) (r : FloatingIP)
    (h : r.PodName = "") : (fillOne lister r).Releasable = true := by
  rw [fillOne_podless lister r h]

/-! ## Claims -/

/-- C2: for every presentation record with a non-empty PodName,
fillReleasableAndStatus sets Status to "Deleted" and Releasable to true
when the pod lookup fails or returns no pod, and sets Status to the
pod's current phase string and Releasable to false when the pod is
found; it never returns an error from a failed pod lookup. -/
theorem fill_pod_scoped (lister : PodLister) (r : FloatingIP)
    (h : r.PodName ≠ "") :
    (∀ e, lister r.Namespace r.PodName = .error e →
      fillOne lister r = { r with Releasable := true, Status := "Deleted" }) ∧
    (lister r.Namespace r.PodName = .ok none →
      fillOne lister r = { r with Releasable := true, Status := "Deleted" }) ∧
    (∀ pod, lister r.Namespace r.PodName = .ok (some pod) →
      fillOne lister r = { r with Releasable := false, Status := pod.phase }) ∧
    (∀ (lister2 : PodLister) (l : List FloatingIP),
      fillReleasableAndStatus lister2 l = .ok (fillList lister2 l)) := by
  refine ⟨?_, ?_, ?_, fun lister2 l => rfl⟩
  · intro e he; simp [fillOne, h, he]
  · intro he; simp [fillOne, h, he]
  · intro pod hp; simp [fillOne, h, hp]

/-- C2 witness. -/
theorem fill_pod_scoped_witness :
    fillOne (fun _ _ => .ok none) { IP := "10.0.0.1", PodName := "web-1" } =
      { IP := "10.0.0.1", PodName := "web-1", Releasable := true, Status := "Deleted" } :=
  (fill_pod_scoped (fun _ _ => .ok none) { IP := "10.0.0.1", PodName := "web-1" }
    (by decide)).2.1 rfl

/-- C9: for every presentation record whose PodName is empty,
fillReleasableAndStatus sets Releasable to true and leaves Status
unchanged (hence empty when it was empty) without consulting the
pod-state collaborator; consequently a release request consisting only
of such pool-level records passes the releasability gate and proceeds
to the store release. -/
theorem fill_pool_scoped (lister lister2 : PodLister) (r : FloatingIP)
    (h : r.PodName = "") :
    (fillOne lister r = { r with Releasable := true } ∧
     (fillOne lister r).Status = r.Status ∧
     fillOne lister r = fillOne lister2 r) ∧
    (∀ (parseIP : String → Bool) (lister3 : PodLister) (ipam : StoreFn)
       (secondIpam : Option StoreFn) (reqIPs : List FloatingIP)
       (m : List (String × String)),
      (∀ x ∈ reqIPs, x.PodName = "") →
      buildIpToKey parseIP reqIPs = .ok m →
      controllerReleaseIPs parseIP lister3 ipam secondIpam reqIPs =
        respondFromBatch (batchReleaseIPs m ipam secondIpam)) := by
  constructor
  · refine ⟨fillOne_podless lister r h, ?_, ?_⟩
    · rw [fillOne_podless lister r h]
    · rw [fillOne_podless lister r h, fillOne_podless lister2 r h]
  · intro parseIP lister3 ipam secondIpam reqIPs m hall hok
    have hfind : (fillList lister3 reqIPs).find? (fun x => !x.Releasable) = none := by
      rw [List.find?_eq_none]
      intro x hx
      rcases List.mem_map.mp hx with ⟨y, hy, rfl⟩
      rw [fillOne_releasable_of_podless lister3 y (hall y hy)]
      simp
    simp only [controllerReleaseIPs, fillReleasableAndStatus, hok, hfind]

/-- C9 witness. -/
theorem fill_pool_scoped_witness :
    (fillOne (fun _ _ => .ok none) { IP := "10.0.0.9", PoolName := "pool1" } =
        { IP := "10.0.0.9", PoolName := "pool1", Releasable := true } ∧
      (fillOne (fun _ _ => .ok none) { IP := "10.0.0.9", PoolName := "pool1" }).Status = "" ∧
      True) ∧
    controllerReleaseIPs (fun _ => true) (fun _ _ => .error "lister down")
        (fun m => { released := m }) none [{ IP := "10.0.0.9", PoolName := "pool1" }] =
      .done 200 "" [] := by
  have h := fill_pool_scoped (fun _ _ => .ok none) (fun _ _ => .ok none)
    { IP := "10.0.0.9", PoolName := "pool1" } (by decide)
  refine ⟨⟨h.1.1, h.1.2.1, trivial⟩, ?_⟩
  have h2 := h.2 (fun _ => true) (fun _ _ => .error "lister down")
    (fun m => { released := m }) none [{ IP := "10.0.0.9", PoolName := "pool1" }]
    [("10.0.0.9", keyInDB StatefulsetPrefixKey "" "" "" "pool1")]
    (by intro x hx; simp only [List.mem_singleton] at hx; subst hx; rfl) rfl
  rw [h2]
  decide

/-- C3: with a secondary store present and neither store erroring,
batchReleaseIPs releases against the primary first, retries exactly the
primary's unreleased map against the secondary, returns as released the
union of the two released maps, and returns as unreleased exactly the
secondary's leftover (the primary's leftover when the secondary is
nil). -/
theorem batchReleaseIPs_merge (ipToKey : List (String × String))
    (ipam : StoreFn) (s2 : StoreFn)
    (h1 : (ipam ipToKey).err = none)
    (h2 : (s2 (ipam ipToKey).unreleased).err = none) :
    batchReleaseIPs ipToKey ipam (some s2) =
      { released := mergeAssoc (ipam ipToKey).released (s2 (ipam ipToKey).unreleased).released
        unreleased := (s2 (ipam ipToKey).unreleased).unreleased
        err := none } ∧
    (∀ k, k ∈ keysOf (batchReleaseIPs ipToKey ipam (some s2)).released ↔
      k ∈ keysOf (ipam ipToKey).released ∨
        k ∈ keysOf (s2 (ipam ipToKey).unreleased).released) ∧
    (∀ (m : List (String × String)) (p : StoreFn), (p m).err = none →
      batchReleaseIPs m p none =
        { released := (p m).released, unreleased := (p m).unreleased, err := none }) := by
  have hmain : batchReleaseIPs ipToKey ipam (some s2) =
      { released := mergeAssoc (ipam ipToKey).released (s2 (ipam ipToKey).unreleased).released
        unreleased := (s2 (ipam ipToKey).unreleased).unreleased
        err := none } := by
    simp only [batchReleaseIPs, h1, h2]
  refine ⟨hmain, ?_, ?_⟩
  · intro k
    rw [hmain]
    exact keysOf_mergeAssoc _ _ k
  · intro m p hp
    simp only [batchReleaseIPs, hp]

/-- C3 witness: a primary missing the address and a secondary holding it. -/
theorem batchReleaseIPs_merge_witness :
    batchReleaseIPs [("10.0.0.5", "sts_ns/app/pod/")]
        (fun _ => { unreleased := [("10.0.0.5", "sts_ns/app/pod/")] })
        (some (fun m => { released := m })) =
      { released := [("10.0.0.5", "sts_ns/app/pod/")], unreleased := [], err := none } :=
  (batchReleaseIPs_merge [("10.0.0.5", "sts_ns/app/pod/")]
    (fun _ => { unreleased := [("10.0.0.5", "sts_ns/app/pod/")] })
    (fun m => { released := m }) rfl rfl).1

/-- C4: a secondary-store error whose message matches the
backing-table-absent pattern is suppressed (nil error, merged result
standing); any other secondary-store error is returned to the caller. -/
theorem batchReleaseIPs_secondary_error (ipToKey : List (String × String))
    (ipam : StoreFn) (s2 : StoreFn) (e : String)
    (h1 : (ipam ipToKey).err = none)
    (h2 : (s2 (ipam ipToKey).unreleased).err = some e) :
    batchReleaseIPs ipToKey ipam (some s2) =
      { released := mergeAssoc (ipam ipToKey).released (s2 (ipam ipToKey).unreleased).released
        unreleased := (s2 (ipam ipToKey).unreleased).unreleased
        err := if tableAbsentErr e then none else some e } := by
  simp only [batchReleaseIPs, h1, h2]
  split <;> simp_all

/-- C4 witness: a table-absent error is suppressed while another error
is propagated, on concrete stores. -/
theorem batchReleaseIPs_secondary_error_witness :
    batchReleaseIPs [("10.0.0.5", "k")] (fun m => { unreleased := m })
        (some (fun _ => { err := some ("Table second_fips doesn" ++
          String.singleton (Char.ofNat 39) ++ "t exist") })) =
      { released := [], unreleased := [], err := none } ∧
    batchReleaseIPs [("10.0.0.5", "k")] (fun m => { unreleased := m })
        (some (fun _ => { err := some "connection refused" })) =
      { released := [], unreleased := [], err := some "connection refused" } := by
  constructor
  · rw [batchReleaseIPs_secondary_error [("10.0.0.5", "k")] (fun m => { unreleased := m })
      (fun _ => { err := some ("Table second_fips doesn" ++
        String.singleton (Char.ofNat 39) ++ "t exist") }) _ rfl rfl]
    decide
  · rw [batchReleaseIPs_secondary_error [("10.0.0.5", "k")] (fun m => { unreleased := m })
      (fun _ => { err := some "connection refused" }) _ rfl rfl]
    decide

theorem sortFunc_unrecognized (s : String)
    (h : strToLower s ∉ recognizedSortTokens) : sortFunc s = ipAscLess := by
  simp only [recognizedSortTokens, List.mem_cons, List.mem_singleton, not_or] at h
  obtain ⟨h1, h2, h3, h4, h5, h6, h7, h8, h9, h10, h11⟩ := h
  simp only [sortFunc, if_neg h1, if_neg h2, if_neg h3, if_neg h4, if_neg h5,
    if_neg h6, if_neg h7, if_neg h8, if_neg h9]

/-- C6: every sort token outside the recognized set (after lowercasing),
including the empty token, selects the IP-ascending order for the
listing; each recognized token selects the named field in the named
direction; and for an unrecognized token the sorted listing is pairwise
non-descending on IP. -/
theorem sortFunc_spec :
    (∀ s, strToLower s = "ip" ∨ strToLower s = "ip asc" → sortFunc s = ipAscLess) ∧
    (∀ s, strToLower s = "ip desc" → sortFunc s = ipDescLess) ∧
    (∀ s, strToLower s = "namespace asc" → sortFunc s = nsAscLess) ∧
    (∀ s, strToLower s = "namespace desc" → sortFunc s = nsDescLess) ∧
    (∀ s, strToLower s = "podname" ∨ strToLower s = "podname asc" →
      sortFunc s = podAscLess) ∧
    (∀ s, strToLower s = "podname desc" → sortFunc s = podDescLess) ∧
    (∀ s, strToLower s = "policy" ∨ strToLower s = "policy asc" →
      sortFunc s = policyAscLess) ∧
    (∀ s, strToLower s = "policy desc" → sortFunc s = policyDescLess) ∧
    (∀ s, strToLower s ∉ recognizedSortTokens → sortFunc s = ipAscLess) ∧
    sortFunc "" = ipAscLess ∧
    (∀ s l, strToLower s ∉ recognizedSortTokens →
      (sortBy (sortFunc s) l).Pairwise (fun a b => ipAscLess b a = false)) := by
  refine ⟨?_, ?_, ?_, ?_, ?_, ?_, ?_, ?_, sortFunc_unrecognized, ?_, ?_⟩
  · rintro s (h | h) <;> simp [sortFunc, h]
  · intro s h; simp [sortFunc, h]
  · intro s h; simp [sortFunc, h]
  · intro s h; simp [sortFunc, h]
  · rintro s (h | h) <;> simp [sortFunc, h]
  · intro s h; simp [sortFunc, h]
  · rintro s (h | h) <;> simp [sortFunc, h]
  · intro s h; simp [sortFunc, h]
  · exact sortFunc_unrecognized "" (by decide)
  · intro s l h
    rw [sortFunc_unrecognized s h]
    haveI htot : IsTotal FloatingIP (fun a b => ipAscLess b a = false) := by
      constructor
      intro a b
      by_cases hab : b.IP < a.IP
      · right
        simpa [ipAscLess] using asymm hab
      · left
        simpa [ipAscLess] using hab
    haveI htrans : IsTrans FloatingIP (fun a b => ipAscLess b a = false) := by
      constructor
      intro a b c hab hbc
      simp only [ipAscLess, decide_eq_false_iff_not, not_lt] at *
      exact le_trans hab hbc
    exact List.sorted_insertionSort (fun a b => ipAscLess b a = false) l

/-- C6 witness. -/
theorem sortFunc_spec_witness :
    sortFunc "PodName DESC" = podDescLess ∧ sortFunc "bogus" = ipAscLess :=
  ⟨sortFunc_spec.2.2.2.2.2.1 "PodName DESC" (by decide),
   sortFunc_spec.2.2.2.2.2.2.2.2.1 "bogus" (by decide)⟩

/-- C1: if the releasability evaluation marks any requested IP as not
releasable, ReleaseIPs rejects the whole request with a bad-request
"not releasable" response, for every pair of stores alike — so
batchReleaseIPs is never consulted and no address is released; and a
filled record is non-releasable exactly when its pod-scoped lookup
finds a live pod. -/
theorem releaseIPs_gate (parseIP : String → Bool) (lister : PodLister)
    (reqIPs : List FloatingIP) (m : List (String × String)) (r0 : FloatingIP)
    (hok : buildIpToKey parseIP reqIPs = .ok m)
    (hfind : (fillList lister reqIPs).find? (fun r => !r.Releasable) = some r0) :
    (∀ (ipam : StoreFn) (secondIpam : Option StoreFn),
      controllerReleaseIPs parseIP lister ipam secondIpam reqIPs =
        .badRequest (r0.IP ++ " is not releasable")) ∧
    (∀ (lister2 : PodLister) (r : FloatingIP),
      (fillOne lister2 r).Releasable = false ↔
        r.PodName ≠ "" ∧ ∃ pod, lister2 r.Namespace r.PodName = .ok (some pod)) := by
  constructor
  · intro ipam secondIpam
    simp only [controllerReleaseIPs, fillReleasableAndStatus, hok, hfind]
  · intro lister2 r
    by_cases h : r.PodName = ""
    · simp [fillOne, h]
    · rcases hl : lister2 r.Namespace r.PodName with e | p
      · simp [fillOne, h, hl]
      · rcases p with _ | pod
        · simp [fillOne, h, hl]
        · simp [fillOne, h, hl]

/-- C1 witness: one record whose pod is alive; the request is rejected
and the (arbitrary) stores are never reflected in the outcome. -/
theorem releaseIPs_gate_witness :
    controllerReleaseIPs (fun _ => true)
        (fun _ _ => .ok (some { phase := "Running" }))
        (fun m => { released := m }) (some (fun m => { released := m }))
        [{ IP := "10.0.0.1", Namespace := "default", AppName := "web",
           PodName := "web-1" }] =
      .badRequest "10.0.0.1 is not releasable" :=
  (releaseIPs_gate (fun _ => true) (fun _ _ => .ok (some { phase := "Running" }))
    [{ IP := "10.0.0.1", Namespace := "default", AppName := "web", PodName := "web-1" }]
    [("10.0.0.1", keyInDB StatefulsetPrefixKey "default" "web" "web-1" "")]
    _ rfl rfl).1 (fun m => { released := m }) (some (fun m => { released := m }))

/-- C5: when the request passes validation and the releasability gate,
ReleaseIPs responds 500 when batchReleaseIPs errors, 202 when it
succeeds with a non-empty unreleased set, and 200 when everything was
released — and the response always carries the unreleased list. -/
theorem releaseIPs_status (parseIP : String → Bool) (lister : PodLister)
    (ipam : StoreFn) (secondIpam : Option StoreFn)
    (reqIPs : List FloatingIP) (m : List (String × String))
    (hok : buildIpToKey parseIP reqIPs = .ok m)
    (hgate : ∀ r ∈ fillList lister reqIPs, r.Releasable = true) :
    controllerReleaseIPs parseIP lister ipam secondIpam reqIPs =
      respondFromBatch (batchReleaseIPs m ipam secondIpam) ∧
    (∀ res : RelResult,
      (∀ e, res.err = some e → respondFromBatch res =
        .done 500 ("server error: " ++ e) (res.unreleased.map Prod.fst)) ∧
      (res.err = none → res.unreleased ≠ [] → respondFromBatch res =
        .done 202 ("Unreleased ips have been released or allocated to other pods, " ++
          "or are not within valid range") (res.unreleased.map Prod.fst)) ∧
      (res.err = none → res.unreleased = [] →
        respondFromBatch res = .done 200 "" (res.unreleased.map Prod.fst))) := by
  constructor
  · have hfind : (fillList lister reqIPs).find? (fun r => !r.Releasable) = none := by
      rw [List.find?_eq_none]
      intro x hx
      rw [hgate x hx]
      simp
    simp only [controllerReleaseIPs, fillReleasableAndStatus, hok, hfind]
  · intro res
    refine ⟨?_, ?_, ?_⟩
    · intro e he; simp [respondFromBatch, he]
    · intro he hne
      simp [respondFromBatch, he, List.length_pos, hne]
    · intro he hnil; simp [respondFromBatch, he, hnil]

/-- C5 witness: a store that releases one address and leaves the other
yields a 202 carrying the unreleased address. -/
theorem releaseIPs_status_witness :
    controllerReleaseIPs (fun _ => true) (fun _ _ => .ok none)
        (fun m => { released := m.filter (fun p => p.1 = "10.0.0.1"),
                    unreleased := m.filter (fun p => p.1 ≠ "10.0.0.1") }) none
        [{ IP := "10.0.0.1", PoolName := "p" }, { IP := "10.0.0.2", PoolName := "p" }] =
      .done 202 ("Unreleased ips have been released or allocated to other pods, " ++
        "or are not within valid range") ["10.0.0.2"] :=
  ((releaseIPs_status (fun _ => true) (fun _ _ => .ok none)
      (fun m => { released := m.filter (fun p => p.1 = "10.0.0.1"),
                  unreleased := m.filter (fun p => p.1 ≠ "10.0.0.1") }) none
      [{ IP := "10.0.0.1", PoolName := "p" }, { IP := "10.0.0.2", PoolName := "p" }]
      [("10.0.0.1", keyInDB StatefulsetPrefixKey "" "" "" "p"),
       ("10.0.0.2", keyInDB StatefulsetPrefixKey "" "" "" "p")]
      rfl (by decide)).1).trans (by decide)

theorem buildIpToKeyAux_append (parseIP : String → Bool)
    (pre rest : List FloatingIP) (acc : List (String × String))
    (h : ∀ x ∈ pre, ∃ k, recordKey parseIP x = .ok k) :
    ∃ acc2, buildIpToKeyAux parseIP acc (pre ++ rest) =
      buildIpToKeyAux parseIP acc2 rest := by
  induction pre generalizing acc with
  | nil => exact ⟨acc, rfl⟩
  | cons x t ih =>
    rcases h x (List.mem_cons_self x t) with ⟨k, hk⟩
    simp only [List.cons_append, buildIpToKeyAux, hk]
    exact ih (insertAssoc acc x.IP k) (fun y hy => h y (List.mem_cons_of_mem x hy))

/-- C7: toAppTypePrefix maps "deployment" to the Deployment marker,
"statefulset"/"statefulsets" to the StatefulSet marker and "tapp" to the
TApp marker; every other token maps to the empty marker, and both
ListIPs and ReleaseIPs then reject the request as an invalid app type
before any store access (the outcome is a bad request for every choice
of stores). -/
theorem invalid_app_type :
    (toAppTypePfx "deployment" = DeploymentPrefixKey ∧
     toAppTypePfx "statefulset" = StatefulsetPrefixKey ∧
     toAppTypePfx "statefulsets" = StatefulsetPrefixKey ∧
     toAppTypePfx "tapp" = TAppPrefixKey) ∧
    (∀ s, s ≠ "deployment" → s ≠ "statefulset" → s ≠ "statefulsets" → s ≠ "tapp" →
      toAppTypePfx s = "") ∧
    (∀ (ipam : QueryStore) (secondIpam : Option QueryStore) (lister : PodLister)
       (req : ListReq),
      req.keyword = "" → req.appType ≠ "" → toAppTypePfx req.appType = "" →
      controllerListIPs ipam secondIpam lister req =
        .badRequest ("invalid appType " ++ req.appType)) ∧
    (∀ (parseIP : String → Bool) (lister : PodLister) (ipam : StoreFn)
       (secondIpam : Option StoreFn) (pre : List FloatingIP) (r : FloatingIP)
       (rest : List FloatingIP),
      (∀ x ∈ pre, ∃ k, recordKey parseIP x = .ok k) →
      parseIP r.IP = true → r.AppType ≠ "" → toAppTypePfx r.AppType = "" →
      controllerReleaseIPs parseIP lister ipam secondIpam (pre ++ r :: rest) =
        .badRequest ("unknown app type " ++ goQuote r.AppType)) := by
  refine ⟨⟨rfl, rfl, rfl, rfl⟩, ?_, ?_, ?_⟩
  · intro s h1 h2 h3 h4
    simp only [toAppTypePfx, if_neg h1, if_neg h2, if_neg h3, if_neg h4]
  · intro ipam secondIpam lister req h1 h2 h3
    simp only [controllerListIPs, h1, h2, h3, eq_self_iff_true, if_true, if_false,
      listWithPfx]
  · intro parseIP lister ipam secondIpam pre r rest hpre hip hat hpfx
    have hrk : recordKey parseIP r =
        .error ("unknown app type " ++ goQuote r.AppType) := by
      simp only [recordKey, hip, hat, hpfx, Bool.not_true, Bool.false_eq_true,
        if_false, reduceIte]
    rcases buildIpToKeyAux_append parseIP pre (r :: rest) [] hpre with ⟨acc2, hacc⟩
    have herr : buildIpToKey parseIP (pre ++ r :: rest) =
        .error ("unknown app type " ++ goQuote r.AppType) := by
      rw [buildIpToKey, hacc]
      simp only [buildIpToKeyAux, hrk]
    simp only [controllerReleaseIPs, herr]

/-- C7 witness: the four recognized tokens, and a concrete rejected
list and release request with app type "daemonset". -/
theorem invalid_app_type_witness :
    toAppTypePfx "deployment" = DeploymentPrefixKey ∧
    controllerListIPs ⟨fun _ => .ok [], fun _ => .ok []⟩ none (fun _ _ => .ok none)
        { appType := "daemonset" } = .badRequest "invalid appType daemonset" ∧
    controllerReleaseIPs (fun _ => true) (fun _ _ => .ok none)
        (fun m => { released := m }) none [{ IP := "1.2.3.4", AppType := "daemonset" }] =
      .badRequest ("unknown app type " ++ goQuote "daemonset") :=
  ⟨invalid_app_type.1.1,
   invalid_app_type.2.2.1 ⟨fun _ => .ok [], fun _ => .ok []⟩ none (fun _ _ => .ok none)
     { appType := "daemonset" } rfl (by decide) rfl,
   invalid_app_type.2.2.2 (fun _ => true) (fun _ _ => .ok none)
     (fun m => { released := m }) none [] { IP := "1.2.3.4", AppType := "daemonset" } []
     (fun x hx => absurd hx (List.not_mem_nil x)) rfl (by decide) rfl⟩

/-- C8: when the appType field is absent the legacy isDeployment flag
selects the marker — true gives the Deployment prefix, false the
StatefulSet prefix — in both the release validation loop and the list
parameter resolution. -/
theorem legacy_is_deployment :
    (∀ (parseIP : String → Bool) (r : FloatingIP),
      parseIP r.IP = true → r.AppType = "" →
      recordKey parseIP r = .ok (keyInDB
        (if r.IsDeployment then DeploymentPrefixKey else StatefulsetPrefixKey)
        r.Namespace r.AppName r.PodName r.PoolName)) ∧
    (∀ (ipam : QueryStore) (secondIpam : Option QueryStore) (lister : PodLister)
       (req : ListReq) (b : Bool),
      req.keyword = "" → req.appType = "" → req.isDeployment ≠ "" →
      parseBool req.isDeployment = some b →
      controllerListIPs ipam secondIpam lister req =
        listPhase (keyInDB (if b then DeploymentPrefixKey else StatefulsetPrefixKey)
            req.ns req.appName req.podName req.poolName)
          false ipam secondIpam lister req.sortParam req.page req.size) := by
  constructor
  · intro parseIP r hip hat
    simp only [recordKey, hip, hat, Bool.not_true, Bool.false_eq_true, if_false,
      reduceIte, if_true]
  · intro ipam secondIpam lister req b h1 h2 h3 hb
    simp only [controllerListIPs, h1, h2, eq_self_iff_true, if_true]
    rw [if_pos h3]
    cases b with
    | true =>
      simp only [hb, listWithPfx, if_true]
      rw [if_neg (by decide : ¬(DeploymentPrefixKey = ""))]
    | false =>
      simp only [hb, listWithPfx, Bool.false_eq_true, if_false]
      rw [if_neg (by decide : ¬(StatefulsetPrefixKey = ""))]

/-- C8 witness. -/
theorem legacy_is_deployment_witness :
    recordKey (fun _ => true) { IP := "1.2.3.4", IsDeployment := true } =
      .ok (keyInDB DeploymentPrefixKey "" "" "" "") ∧
    controllerListIPs ⟨fun _ => .ok [], fun _ => .ok []⟩ none (fun _ _ => .ok none)
        { isDeployment := "true" } =
      listPhase (keyInDB DeploymentPrefixKey "" "" "" "") false
        ⟨fun _ => .ok [], fun _ => .ok []⟩ none (fun _ _ => .ok none) "" 1 10 :=
  ⟨(legacy_is_deployment.1 (fun _ => true)
      { IP := "1.2.3.4", IsDeployment := true } rfl rfl).trans rfl,
   legacy_is_deployment.2 ⟨fun _ => .ok [], fun _ => .ok []⟩ none (fun _ _ => .ok none)
     { isDeployment := "true" } true rfl rfl (by decide) rfl⟩

/-- C10: a list request with no keyword, no appType and no isDeployment
is not rejected: the marker silently defaults to the StatefulSet prefix
and a (non-fuzzy) prefix query built from it is issued, whose key the
StatefulSet marker heads — the filter never queries across all app
types. -/
theorem list_default_statefulset (ipam : QueryStore)
    (secondIpam : Option QueryStore) (lister : PodLister) (req : ListReq)
    (h1 : req.keyword = "") (h2 : req.appType = "") (h3 : req.isDeployment = "") :
    controllerListIPs ipam secondIpam lister req =
      listPhase (keyInDB StatefulsetPrefixKey req.ns req.appName req.podName req.poolName)
        false ipam secondIpam lister req.sortParam req.page req.size ∧
    StatefulsetPrefixKey ≠ "" ∧
    (∃ rest, keyInDB StatefulsetPrefixKey req.ns req.appName req.podName req.poolName =
      StatefulsetPrefixKey ++ rest) := by
  refine ⟨?_, by decide, ?_⟩
  · simp only [controllerListIPs, h1, h2, h3, eq_self_iff_true, if_true,
      ne_eq, not_true_eq_false, if_false, listWithPfx]
    rw [if_neg (by decide : ¬(StatefulsetPrefixKey = ""))]
  · exact ⟨req.ns ++ "/" ++ req.appName ++ "/" ++ req.podName ++ "/" ++ req.poolName,
      by simp [keyInDB, String.append_assoc]⟩

/-- C10 witness. -/
theorem list_default_statefulset_witness :
    controllerListIPs ⟨fun _ => .ok [], fun _ => .ok []⟩ none (fun _ _ => .ok none) {} =
      listPhase (keyInDB StatefulsetPrefixKey "" "" "" "") false
        ⟨fun _ => .ok [], fun _ => .ok []⟩ none (fun _ _ => .ok none) "" 1 10 :=
  (list_default_statefulset ⟨fun _ => .ok [], fun _ => .ok []⟩ none
    (fun _ _ => .ok none) {} rfl rfl rfl).1

end Galaxy
